import Mathlib

/-!
Verification of the multi-agent workflow orchestrator in `.codex/agents.py`.

The embedding models the data types (`AgentType`, `AgentTask`, result
records), the three concrete agents (code reviewer, documentation,
testing), and `MultiAgentOrchestrator` with its `process_workflow` loop.
External collaborators are explicit parameters:

* the file reader is a function `FileSystem := String → ReadResult`, where
  `ReadResult` distinguishes a successful read, a file-not-found outcome
  (caught by the agents) and any other read failure (which the agents do
  not catch, so it propagates out of `process_task`);
* the chat-completion client is a function `ModelClient` from the request
  actually built by the agents to either a response text or a failure
  string (the string representation of the raised exception);
* the project context architecture dump (`json.dumps` of the loaded
  context) is an opaque string parameter `arch`.

Exceptions are modelled with `Except String`: `Except.error m` means a
Python exception whose `str` is `m` propagates out of the modelled code.
`process_workflow` additionally returns a trace of observable effects
(`WEvent`): warnings logged for missing files, records appended after a
normal `process_task` return, records appended by the orchestrator-level
exception handler, `asyncio.sleep` calls, and skipped unregistered tasks.
-/

namespace MexcAgents

/-- The `AgentType` enum of `agents.py`. -/
inductive AgentType where
  | CODE_REVIEWER
  | DOCUMENTATION
  | TESTING
  | REFACTORING
  | ARCHITECTURE
  | SECURITY
  | PERFORMANCE
  deriving DecidableEq, Repr

/-- The `.value` string of each enum member. -/
def AgentType.value : AgentType → String
  | .CODE_REVIEWER => "code_reviewer"
  | .DOCUMENTATION => "documentation"
  | .TESTING => "testing"
  | .REFACTORING => "refactoring"
  | .ARCHITECTURE => "architecture"
  | .SECURITY => "security"
  | .PERFORMANCE => "performance"

/-- The `AgentTask` dataclass: category, description, context mapping,
file paths, requirement strings, integer priority. -/
structure AgentTask where
  task_type : AgentType
  description : String
  context : List (String × String)
  files : List String
  requirements : List String
  priority : Int
  deriving DecidableEq, Repr

/-- Outcome of reading one file: content, `FileNotFoundError` (caught by
the agents), or any other read failure with its exception string (not
caught by the agents). -/
inductive ReadResult where
  | found (content : String)
  | notFound
  | readError (msg : String)
  deriving DecidableEq, Repr

/-- The external file reader. -/
def FileSystem : Type := String → ReadResult

/-- One request to `client.chat.completions.create`: model id, (role,
content) messages, `max_tokens`, `temperature`. -/
structure ChatRequest where
  model : String
  messages : List (String × String)
  max_tokens : Nat
  temperature : Rat
  deriving DecidableEq, Repr

/-- The external model client: either a response text or the string
representation of the raised exception. -/
def ModelClient : Type := ChatRequest → Except String String

/-- A result record, as built by the three `process_task` methods and by
the orchestrator-level exception handler.  `payload` and `filesEcho` keep
the dict key actually used (`review`/`documentation`/`tests` and
`files_reviewed`/`files_documented`/`files_tested`). -/
structure ResultRecord where
  agent_type : String
  status : String
  payload : Option (String × String)
  filesEcho : Option (String × List String)
  error : Option String
  deriving DecidableEq, Repr

/-- `Python str.join` on a list of strings, as used via
`chr(10).join(file_contents)` and `", ".join(task.requirements)`. -/
def joinSep (sep : String) : List String → String
  | [] => ""
  | [x] => x
  | x :: y :: rest => x ++ sep ++ joinSep sep (y :: rest)

/-- The shared preamble of `get_system_prompt`, with the architecture
dump passed in as the opaque string `arch`. -/
def baseContext (arch : String) : String :=
  "\nYou are a specialized AI assistant for the MEXC Sniper Bot project - an advanced cryptocurrency trading platform.\n\nProject Context:\n- Backend: FastAPI with Python 3.11+, SQLModel, Valkey cache\n- Frontend: Next.js 15 with TypeScript, shadcn/ui components\n- AI Features: Pattern detection, trading strategies, market analysis\n- Key Components: Trading agents, MEXC API integration, calendar component\n\nArchitecture: " ++ arch ++ "\n"

/-- The per-agent-type block of the `agent_prompts` dict in
`get_system_prompt`.  The dict covers every enum member, so the `.get`
default of an empty string is unreachable. -/
def agentPromptBlock : AgentType → String
  | .CODE_REVIEWER =>
    "\nYou are a senior code reviewer specializing in trading systems and AI applications.\nFocus on:\n- Code quality, security, and performance\n- Trading logic correctness and risk management\n- Async/await patterns and error handling\n- Type safety and documentation\n- Following project patterns and best practices\n"
  | .DOCUMENTATION =>
    "\nYou are a technical documentation specialist.\nFocus on:\n- Clear, comprehensive documentation\n- API documentation with examples\n- Architecture diagrams and explanations\n- User guides and setup instructions\n- Code comments and docstrings\n"
  | .TESTING =>
    "\nYou are a testing specialist for financial applications.\nFocus on:\n- Comprehensive test coverage\n- Unit, integration, and performance tests\n- Mock trading scenarios and edge cases\n- Test data generation and fixtures\n- CI/CD testing strategies\n"
  | .REFACTORING =>
    "\nYou are a refactoring specialist.\nFocus on:\n- Code optimization and clean architecture\n- Performance improvements\n- Maintainability and readability\n- Design pattern implementation\n- Technical debt reduction\n"
  | .ARCHITECTURE =>
    "\nYou are a software architect specializing in trading systems.\nFocus on:\n- System design and scalability\n- Microservices architecture\n- Real-time data processing\n- Security and compliance\n- Technology stack optimization\n"
  | .SECURITY =>
    "\nYou are a security specialist for financial applications.\nFocus on:\n- API security and authentication\n- Data encryption and secure storage\n- Input validation and sanitization\n- Trading system security\n- Compliance with financial regulations\n"
  | .PERFORMANCE =>
    "\nYou are a performance optimization specialist.\nFocus on:\n- Trading latency optimization\n- Database query optimization\n- Caching strategies\n- Real-time processing efficiency\n- Resource utilization\n"

/-- `get_system_prompt`: shared preamble plus the per-type block. -/
def get_system_prompt (arch : String) (a : AgentType) : String :=
  baseContext arch ++ agentPromptBlock a

/-- One entry of `file_contents`:
`f"File: \x7bfile_path\x7d\n```\n\x7bcontent\x7d\n```"`. -/
def fileBlock (path content : String) : String :=
  "File: " ++ path ++ "\n```\n" ++ content ++ "\n```"

/-- The warning message logged for a missing file. -/
def fileNotFoundWarning (path : String) : String :=
  "File not found: " ++ path

/-- The file-gathering loop shared by all three `process_task` methods:
returns the `file_contents` blocks in input order, the warnings logged
for missing files, and `some msg` when a read raised something other
than `FileNotFoundError` (aborting the loop at that file). -/
def collectFiles (fs : FileSystem) : List String → List String × List String × Option String
  | [] => ([], [], none)
  | p :: rest =>
    match fs p with
    | .found c =>
      (fileBlock p c :: (collectFiles fs rest).1,
       (collectFiles fs rest).2.1, (collectFiles fs rest).2.2)
    | .notFound =>
      ((collectFiles fs rest).1,
       fileNotFoundWarning p :: (collectFiles fs rest).2.1,
       (collectFiles fs rest).2.2)
    | .readError m => ([], [], some m)

/-- The per-variant constants of one agent class: its enum member, the
prompt text before and after the task-specific middle section, the model
call parameters, and the dict keys used for the payload and for the echo
of the input file list. -/
structure AgentCfg where
  agent_type : AgentType
  introLine : String
  outro : String
  max_tokens : Nat
  temperature : Rat
  payloadKey : String
  filesKey : String
  deriving DecidableEq, Repr

/-- `CodeReviewerAgent`: its prompt pieces, `max_tokens=2000`,
`temperature=0.1`, payload key `review`, echo key `files_reviewed`. -/
def codeReviewerAgent : AgentCfg :=
  ⟨.CODE_REVIEWER,
   "Please review the following code for the MEXC Sniper Bot project:",
   "Provide a comprehensive code review including:\n1. Security issues and vulnerabilities\n2. Performance optimizations\n3. Code quality improvements\n4. Trading logic correctness\n5. Compliance with project patterns\n6. Specific actionable recommendations\n\nFormat your response as structured feedback with severity levels.",
   2000, (0.1 : Rat), "review", "files_reviewed"⟩

/-- `DocumentationAgent`: its prompt pieces, `max_tokens=2500`,
`temperature=0.2`, payload key `documentation`, echo key
`files_documented`. -/
def documentationAgent : AgentCfg :=
  ⟨.DOCUMENTATION,
   "Generate comprehensive documentation for the following code:",
   "Create documentation that includes:\n1. Overview and purpose\n2. API endpoints with examples\n3. Function/class documentation\n4. Usage examples\n5. Configuration options\n6. Error handling\n7. Performance considerations\n\nFormat the documentation in Markdown with proper structure and examples.",
   2500, (0.2 : Rat), "documentation", "files_documented"⟩

/-- `TestingAgent`: its prompt pieces, `max_tokens=2500`,
`temperature=0.1`, payload key `tests`, echo key `files_tested`. -/
def testingAgent : AgentCfg :=
  ⟨.TESTING,
   "Generate comprehensive tests for the following code:",
   "Create tests that include:\n1. Unit tests for all functions/methods\n2. Integration tests for API endpoints\n3. Mock trading scenarios\n4. Edge cases and error conditions\n5. Performance tests where applicable\n6. Fixtures and test data\n\nUse pytest framework and follow the existing test patterns in the project.\nInclude proper async test patterns and mocking for external APIs.",
   2500, (0.1 : Rat), "tests", "files_tested"⟩

/-- The prompt f-string shared (up to the per-variant middle and tail
text) by the three `process_task` methods. -/
def buildPrompt (cfg : AgentCfg) (arch : String) (blocks : List String) (task : AgentTask) : String :=
  "\n" ++ get_system_prompt arch cfg.agent_type ++ "\n\n" ++ cfg.introLine ++ "\n\n"
    ++ joinSep "\n" blocks
    ++ "\n\nTask Description: " ++ task.description
    ++ "\nRequirements: " ++ joinSep ", " task.requirements
    ++ "\n\n" ++ cfg.outro ++ "\n"

/-- The prompt an agent builds for a task from the files it could read. -/
def promptFor (cfg : AgentCfg) (fs : FileSystem) (arch : String) (task : AgentTask) : String :=
  buildPrompt cfg arch (collectFiles fs task.files).1 task

/-- The request passed to `client.chat.completions.create`: model
`gpt-4`, a single user message with the built prompt, and the
per-variant `max_tokens` and `temperature`. -/
def requestFor (cfg : AgentCfg) (fs : FileSystem) (arch : String) (task : AgentTask) : ChatRequest :=
  ⟨"gpt-4", [("user", promptFor cfg fs arch task)], cfg.max_tokens, cfg.temperature⟩

/-- The success record: agent type value, payload under the per-variant
key, echo of `task.files` under the per-variant key, status
`completed`. -/
def completedRecord (cfg : AgentCfg) (task : AgentTask) (text : String) : ResultRecord :=
  ⟨cfg.agent_type.value, "completed", some (cfg.payloadKey, text), some (cfg.filesKey, task.files), none⟩

/-- The record built inside the `except` clause of `process_task`:
agent type value, status `error`, the exception string; no payload and
no echo of the file list. -/
def agentErrorRecord (cfg : AgentCfg) (e : String) : ResultRecord :=
  ⟨cfg.agent_type.value, "error", none, none, some e⟩

/-- `process_task` of one agent: gather file contents (a read failure
other than not-found propagates), build the prompt, call the model;
model failures are caught and become an error record.  Returns the
outcome together with the list of logged missing-file warnings. -/
def process_task (cfg : AgentCfg) (fs : FileSystem) (client : ModelClient) (arch : String) (task : AgentTask) : Except String ResultRecord × List String :=
  match (collectFiles fs task.files).2.2 with
  | some m => (.error m, (collectFiles fs task.files).2.1)
  | none =>
    match client (requestFor cfg fs arch task) with
    | .ok text => (.ok (completedRecord cfg task text), (collectFiles fs task.files).2.1)
    | .error e => (.ok (agentErrorRecord cfg e), (collectFiles fs task.files).2.1)

/-- The orchestrator object: it carries the resolved API key. -/
structure MultiAgentOrchestrator where
  api_key : String
  deriving DecidableEq, Repr

/-- Python truthiness of an optional string: `None` and the empty string
are falsy. -/
def pyTruthy : Option String → Bool
  | none => false
  | some s => !(s == "")

/-- Python `a or b` on optional strings, as in
`openai_api_key or os.getenv("OPENAI_API_KEY")`. -/
def pyOrStr (a b : Option String) : Option String :=
  if pyTruthy a then a else b

/-- The `ValueError` message raised when no API key is available. -/
def missingKeyMsg : String :=
  "OpenAI API key not found. Set OPENAI_API_KEY environment variable."

/-- `MultiAgentOrchestrator.__init__`: resolve the key from the argument
or the environment; a missing or empty key is a construction-time
`ValueError`. -/
def MultiAgentOrchestrator.init (openai_api_key env_key : Option String) : Except String MultiAgentOrchestrator :=
  match pyOrStr openai_api_key env_key with
  | some s => if s == "" then .error missingKeyMsg else .ok ⟨s⟩
  | none => .error missingKeyMsg

/-- The `self.agents` registry built in `__init__`: exactly the code
reviewer, documentation and testing agents. -/
def agents : AgentType → Option AgentCfg
  | .CODE_REVIEWER => some codeReviewerAgent
  | .DOCUMENTATION => some documentationAgent
  | .TESTING => some testingAgent
  | _ => none

/-- The record appended by the orchestrator when `process_task` raises:
the task category value, status `error`, and the exception string. -/
def exceptionRecord (t : AgentTask) (m : String) : ResultRecord :=
  ⟨t.task_type.value, "error", none, none, some m⟩

/-- One observable effect of the workflow loop, in program order. -/
inductive WEvent where
  | warned (msg : String)
  | recordFromAgent (r : ResultRecord)
  | slept (units : Nat)
  | recordFromException (agentType : String) (msg : String)
  | skippedNoAgent (agentType : String)
  deriving DecidableEq, Repr

/-- The body of the `for task in sorted_tasks` loop of
`process_workflow`: skip unregistered categories; otherwise run the
agent, append its record and sleep one unit, or — when `process_task`
raises — append the synthesized error record (with no sleep). -/
def runTasks (fs : FileSystem) (client : ModelClient) (arch : String) : List AgentTask → List ResultRecord × List WEvent
  | [] => ([], [])
  | t :: rest =>
    match agents t.task_type with
    | none =>
      ((runTasks fs client arch rest).1,
       .skippedNoAgent t.task_type.value :: (runTasks fs client arch rest).2)
    | some cfg =>
      match (process_task cfg fs client arch t).1 with
      | .ok r =>
        (r :: (runTasks fs client arch rest).1,
         ((process_task cfg fs client arch t).2.map WEvent.warned)
           ++ .recordFromAgent r :: .slept 1 :: (runTasks fs client arch rest).2)
      | .error m =>
        (exceptionRecord t m :: (runTasks fs client arch rest).1,
         ((process_task cfg fs client arch t).2.map WEvent.warned)
           ++ .recordFromException t.task_type.value m :: (runTasks fs client arch rest).2)

/-- The descending-priority ordering used by
`sorted(tasks, key=lambda t: t.priority, reverse=True)`. -/
def taskGE (a b : AgentTask) : Prop := b.priority ≤ a.priority

instance : DecidableRel taskGE :=
  fun a b => inferInstanceAs (Decidable (b.priority ≤ a.priority))

instance : IsTotal AgentTask taskGE :=
  ⟨fun a b => (le_total b.priority a.priority).imp id id⟩

instance : IsTrans AgentTask taskGE :=
  ⟨fun _ _ _ hab hbc => le_trans hbc hab⟩

/-- Python `sorted` with `reverse=True` on the priority key: the stable
descending sort of the task list. -/
def sortedTasks (tasks : List AgentTask) : List AgentTask :=
  List.insertionSort taskGE tasks

/-- The aggregate dict returned by `process_workflow`. -/
structure WorkflowSummary where
  workflow_results : List ResultRecord
  total_tasks : Nat
  completed_tasks : Nat
  failed_tasks : Nat
  deriving DecidableEq, Repr

/-- `MultiAgentOrchestrator.process_workflow`: stable-sort by descending
priority, run the loop, and aggregate the counts.  Also returns the
effect trace. -/
def process_workflow (_o : MultiAgentOrchestrator) (fs : FileSystem) (client : ModelClient) (arch : String) (tasks : List AgentTask) : WorkflowSummary × List WEvent :=
  (⟨(runTasks fs client arch (sortedTasks tasks)).1,
    tasks.length,
    ((runTasks fs client arch (sortedTasks tasks)).1.filter (fun r => r.status == "completed")).length,
    ((runTasks fs client arch (sortedTasks tasks)).1.filter (fun r => r.status == "error")).length⟩,
   (runTasks fs client arch (sortedTasks tasks)).2)

/-- The record (if any) the loop produces for one task: none for an
unregistered category, the agent record on a normal return, the
synthesized error record when `process_task` raises. -/
def taskRecord (fs : FileSystem) (client : ModelClient) (arch : String) (t : AgentTask) : Option ResultRecord :=
  match agents t.task_type with
  | none => none
  | some cfg =>
    match (process_task cfg fs client arch t).1 with
    | .ok r => some r
    | .error m => some (exceptionRecord t m)

/-- The `file_contents` blocks of exactly the files present on disk, in
input order. -/
def presentBlocks (fs : FileSystem) (files : List String) : List String :=
  files.filterMap (fun p =>
    match fs p with
    | .found c => some (fileBlock p c)
    | _ => none)

/-- The warnings logged for exactly the missing files, in input order. -/
def missingWarnings (fs : FileSystem) (files : List String) : List String :=
  files.filterMap (fun p =>
    match fs p with
    | .notFound => some (fileNotFoundWarning p)
    | _ => none)

/-- Whether a read outcome is a failure other than not-found. -/
def isReadError : ReadResult → Bool
  | .readError _ => true
  | _ => false

/-- Whether an event is the appending of a result record (either from a
normal agent return or from the orchestrator-level handler). -/
def isRecordEvent : WEvent → Bool
  | .recordFromAgent _ => true
  | .recordFromException _ _ => true
  | _ => false

/-- Scanner for the claimed delay discipline: every record-producing
event is immediately followed by a one-unit sleep. -/
def delayAfterEveryRecord : List WEvent → Bool
  | [] => true
  | e :: rest =>
    if isRecordEvent e then
      match rest with
      | .slept 1 :: _ => delayAfterEveryRecord rest
      | _ => false
    else delayAfterEveryRecord rest

/-- Scanner for the delay discipline the code actually implements: every
record appended after a normal `process_task` return is immediately
followed by a one-unit sleep. -/
def delayAfterAgentReturn : List WEvent → Bool
  | [] => true
  | .recordFromAgent _ :: rest =>
    (match rest with
     | .slept 1 :: _ => delayAfterAgentReturn rest
     | _ => false)
  | _ :: rest => delayAfterAgentReturn rest

/-! Concrete fixtures used by witnesses and counterexamples. -/

/-- A file system on which every path is missing. -/
def fsEmpty : FileSystem := fun _ => .notFound

/-- A file system with a single readable file `present.py`. -/
def fsPresent : FileSystem := fun p =>
  if p == "present.py" then .found "PRESENT-CONTENT" else .notFound

/-- A file system on which every read fails with a non-not-found error,
as a permission failure would. -/
def fsBad : FileSystem := fun _ => .readError "Permission denied"

/-- A model client that always succeeds with the text `OK`. -/
def clientOK : ModelClient := fun _ => .ok "OK"

/-- A model client that always raises, with exception string `boom`. -/
def clientFail : ModelClient := fun _ => .error "boom"

/-- A constructed orchestrator used to invoke `process_workflow`. -/
def orchX : MultiAgentOrchestrator := ⟨"sk-test"⟩

/-- A code-review task over one (missing) file. -/
def taskX : AgentTask :=
  ⟨.CODE_REVIEWER, "review the bot", [], ["a.py"], ["r1"], 1⟩

/-- A code-review task over one present and one missing file. -/
def taskPM : AgentTask :=
  ⟨.CODE_REVIEWER, "review partial", [], ["present.py", "missing.py"], ["r1"], 1⟩

/-- A high-priority review task whose file read raises. -/
def taskBad : AgentTask :=
  ⟨.CODE_REVIEWER, "review bad", [], ["bad.py"], [], 5⟩

/-- A low-priority review task over no files. -/
def taskGood : AgentTask :=
  ⟨.CODE_REVIEWER, "review good", [], [], [], 1⟩

/-- A task in the unregistered `security` category. -/
def taskSec : AgentTask :=
  ⟨.SECURITY, "audit", [], [], [], 9⟩

/-! Helper lemmas. -/

/-- The registry maps each category to an agent of that category. -/
theorem agents_agent_type {a : AgentType} {cfg : AgentCfg} (h : agents a = some cfg) :
    cfg.agent_type = a := by
  cases a <;> simp [agents] at h <;> subst h <;> rfl

/-- `process_task` either propagates a read failure, or returns the
success record, or returns the caught-model-failure record. -/
theorem process_task_shape (cfg : AgentCfg) (fs : FileSystem) (client : ModelClient) (arch : String) (t : AgentTask) :
    (∃ m, (process_task cfg fs client arch t).1 = .error m)
    ∨ (∃ text, client (requestFor cfg fs arch t) = .ok text
        ∧ (process_task cfg fs client arch t).1 = .ok (completedRecord cfg t text))
    ∨ (∃ e, client (requestFor cfg fs arch t) = .error e
        ∧ (process_task cfg fs client arch t).1 = .ok (agentErrorRecord cfg e)) := by
  unfold process_task
  cases hc : (collectFiles fs t.files).2.2 with
  | some m => exact Or.inl ⟨m, rfl⟩
  | none =>
    cases hm : client (requestFor cfg fs arch t) with
    | ok text => exact Or.inr (Or.inl ⟨text, rfl, rfl⟩)
    | error e => exact Or.inr (Or.inr ⟨e, rfl, rfl⟩)

/-- The records of the loop are exactly the per-task records of the
processed list, in order. -/
theorem runTasks_fst (fs : FileSystem) (client : ModelClient) (arch : String) (l : List AgentTask) :
    (runTasks fs client arch l).1 = l.filterMap (taskRecord fs client arch) := by
  induction l with
  | nil => rfl
  | cons t rest ih =>
    cases hA : agents t.task_type with
    | none => simp [runTasks, taskRecord, hA, ih]
    | some cfg =>
      cases hp : (process_task cfg fs client arch t).1 with
      | ok r => simp [runTasks, taskRecord, hA, hp, ih]
      | error m => simp [runTasks, taskRecord, hA, hp, ih]

/-- Inserting a task into a list keeps the sublist of any fixed
priority, with the inserted task put in front of that sublist exactly
when it has this priority. -/
theorem filter_orderedInsert (p : Int) (a : AgentTask) (s : List AgentTask) :
    (List.orderedInsert taskGE a s).filter (fun t => t.priority == p)
      = if a.priority == p
        then a :: s.filter (fun t => t.priority == p)
        else s.filter (fun t => t.priority == p) := by
  induction s with
  | nil => by_cases h : a.priority = p <;> simp [List.orderedInsert, h]
  | cons b t ih =>
    by_cases hr : taskGE a b
    · rw [List.orderedInsert_of_le taskGE t hr]
      by_cases h : a.priority = p <;> simp [h]
    · have hstep : List.orderedInsert taskGE a (b :: t)
          = b :: List.orderedInsert taskGE a t := by
        simp [List.orderedInsert, hr]
      rw [hstep]
      by_cases ha : a.priority = p
      · have hb : ¬ (b.priority = p) := by
          intro hb
          exact hr (by simp [taskGE, hb, ha])
        simp [List.filter_cons, ha, hb, ih]
      · by_cases hb : b.priority = p <;> simp [List.filter_cons, ha, hb, ih]

/-- The stable descending sort preserves the submission order of the
tasks of each fixed priority. -/
theorem sortedTasks_filter_priority (p : Int) (tasks : List AgentTask) :
    (sortedTasks tasks).filter (fun t => t.priority == p)
      = tasks.filter (fun t => t.priority == p) := by
  induction tasks with
  | nil => rfl
  | cons a l ih =>
    unfold sortedTasks at ih ⊢
    show (List.orderedInsert taskGE a (List.insertionSort taskGE l)).filter _ = _
    rw [filter_orderedInsert]
    by_cases h : a.priority = p <;> simp [List.filter_cons, h, ih]

/-! Claim theorems. -/

/-- Claim C1: `process_workflow` returns exactly one result record per
task whose category has a registered agent (the `filterMap` of
`taskRecord`, which is `some` exactly on registered categories, over the
sorted permutation of the input), and the records follow the sorted
order: descending priority, submission order preserved among equal
priorities. -/
theorem claim_C1 (o : MultiAgentOrchestrator) (fs : FileSystem) (client : ModelClient) (arch : String) (tasks : List AgentTask) :
    (process_workflow o fs client arch tasks).1.workflow_results
      = (sortedTasks tasks).filterMap (taskRecord fs client arch)
    ∧ List.Perm (sortedTasks tasks) tasks
    ∧ List.Pairwise (fun a b : AgentTask => b.priority ≤ a.priority) (sortedTasks tasks)
    ∧ (∀ p : Int, (sortedTasks tasks).filter (fun t => t.priority == p)
        = tasks.filter (fun t => t.priority == p))
    ∧ (∀ t : AgentTask, (taskRecord fs client arch t).isSome ↔ (agents t.task_type).isSome) := by
  refine ⟨runTasks_fst fs client arch (sortedTasks tasks),
    List.perm_insertionSort taskGE tasks,
    List.sorted_insertionSort taskGE tasks,
    fun p => sortedTasks_filter_priority p tasks,
    fun t => ?_⟩
  unfold taskRecord
  cases agents t.task_type with
  | none => simp
  | some cfg => cases hp : (process_task cfg fs client arch t).1 <;> simp [hp]

/-- Claim C5: the summary counts `total_tasks` as the length of the
input list (registered or not), and `completed_tasks` and `failed_tasks`
as the numbers of emitted records whose status is `completed`
respectively `error`. -/
theorem claim_C5 (o : MultiAgentOrchestrator) (fs : FileSystem) (client : ModelClient) (arch : String) (tasks : List AgentTask) :
    (process_workflow o fs client arch tasks).1.total_tasks = tasks.length
    ∧ (process_workflow o fs client arch tasks).1.completed_tasks
        = ((process_workflow o fs client arch tasks).1.workflow_results.filter
            (fun r => r.status == "completed")).length
    ∧ (process_workflow o fs client arch tasks).1.failed_tasks
        = ((process_workflow o fs client arch tasks).1.workflow_results.filter
            (fun r => r.status == "error")).length :=
  ⟨rfl, rfl, rfl⟩

/-- Field contents of any record the loop produces for a registered
task: the category value, a binary status, payload and file-list echo
exactly on success, error message and no echo on failure. -/
theorem taskRecord_fields {fs : FileSystem} {client : ModelClient} {arch : String} {t : AgentTask} {cfg : AgentCfg} {r : ResultRecord}
    (hcfg : agents t.task_type = some cfg)
    (h : taskRecord fs client arch t = some r) :
    r.agent_type = t.task_type.value
    ∧ (r.status = "completed" ∨ r.status = "error")
    ∧ (r.status = "completed" →
        (∃ text, r.payload = some (cfg.payloadKey, text))
          ∧ r.filesEcho = some (cfg.filesKey, t.files) ∧ r.error = none)
    ∧ (r.status = "error" →
        (∃ m, r.error = some m) ∧ r.payload = none ∧ r.filesEcho = none) := by
  have hat := agents_agent_type hcfg
  rcases process_task_shape cfg fs client arch t with ⟨m, hm⟩ | ⟨text, _, hm⟩ | ⟨e, _, hm⟩
  · simp only [taskRecord, hcfg, hm, Option.some.injEq] at h
    subst h
    exact ⟨rfl, Or.inr rfl, fun hc => by simp [exceptionRecord] at hc,
      fun _ => ⟨⟨m, rfl⟩, rfl, rfl⟩⟩
  · simp only [taskRecord, hcfg, hm, Option.some.injEq] at h
    subst h
    exact ⟨congrArg AgentType.value hat, Or.inl rfl,
      fun _ => ⟨⟨text, rfl⟩, rfl, rfl⟩,
      fun he => by simp [completedRecord] at he⟩
  · simp only [taskRecord, hcfg, hm, Option.some.injEq] at h
    subst h
    exact ⟨congrArg AgentType.value hat, Or.inr rfl,
      fun hc => by simp [agentErrorRecord] at hc, fun _ => ⟨⟨e, rfl⟩, rfl, rfl⟩⟩

/-- Claim C2 (amended): a record for a registered task carries the
category value and a binary status; a `completed` record carries the
payload under the per-variant key, the echo of the input file list and
no error; an `error` record carries the error message but no payload and
no file-list echo. -/
theorem claim_C2 {fs : FileSystem} {client : ModelClient} {arch : String} {t : AgentTask} {cfg : AgentCfg} {r : ResultRecord}
    (hcfg : agents t.task_type = some cfg)
    (h : taskRecord fs client arch t = some r) :
    r.agent_type = t.task_type.value
    ∧ (r.status = "completed" ∨ r.status = "error")
    ∧ (r.status = "completed" →
        (∃ text, r.payload = some (cfg.payloadKey, text))
          ∧ r.filesEcho = some (cfg.filesKey, t.files) ∧ r.error = none)
    ∧ (r.status = "error" →
        (∃ m, r.error = some m) ∧ r.payload = none ∧ r.filesEcho = none) :=
  taskRecord_fields hcfg h

/-- Claim C2, counterexample to the claim as stated: when the model call
fails, the produced record has status `error` and carries no echo of the
task input file list, although the task file list is nonempty. -/
theorem claim_C2_counterexample :
    taskRecord fsEmpty clientFail "A" taskX
      = some (agentErrorRecord codeReviewerAgent "boom")
    ∧ taskX.files = ["a.py"]
    ∧ (agentErrorRecord codeReviewerAgent "boom").status = "error"
    ∧ (agentErrorRecord codeReviewerAgent "boom").filesEcho = none :=
  ⟨rfl, rfl, rfl, rfl⟩

/-- Claim C2, witness: the amended statement applied to a concrete
successful run. -/
theorem claim_C2_witness :
    agents taskX.task_type = some codeReviewerAgent
    ∧ taskRecord fsEmpty clientOK "A" taskX
        = some (completedRecord codeReviewerAgent taskX "OK")
    ∧ ((completedRecord codeReviewerAgent taskX "OK").agent_type
          = taskX.task_type.value
        ∧ ((completedRecord codeReviewerAgent taskX "OK").status = "completed"
            ∨ (completedRecord codeReviewerAgent taskX "OK").status = "error")
        ∧ ((completedRecord codeReviewerAgent taskX "OK").status = "completed" →
            (∃ text, (completedRecord codeReviewerAgent taskX "OK").payload
                = some (codeReviewerAgent.payloadKey, text))
              ∧ (completedRecord codeReviewerAgent taskX "OK").filesEcho
                  = some (codeReviewerAgent.filesKey, taskX.files)
              ∧ (completedRecord codeReviewerAgent taskX "OK").error = none)
        ∧ ((completedRecord codeReviewerAgent taskX "OK").status = "error" →
            (∃ m, (completedRecord codeReviewerAgent taskX "OK").error = some m)
              ∧ (completedRecord codeReviewerAgent taskX "OK").payload = none
              ∧ (completedRecord codeReviewerAgent taskX "OK").filesEcho = none)) :=
  ⟨rfl, rfl,
   @claim_C2 fsEmpty clientOK "A" taskX codeReviewerAgent
     (completedRecord codeReviewerAgent taskX "OK") rfl rfl⟩

/-- Claim C3: when the model call raises, `process_task` returns (does
not raise) the caught-failure record, whose status is `error` and whose
error field is the exception string; the loop appends that record,
sleeps, and continues with the remaining tasks. -/
theorem claim_C3 (fs : FileSystem) (client : ModelClient) (arch : String) (cfg : AgentCfg) (t : AgentTask) (rest : List AgentTask) (e : String)
    (hcfg : agents t.task_type = some cfg)
    (hread : (collectFiles fs t.files).2.2 = none)
    (hfail : client (requestFor cfg fs arch t) = .error e) :
    (process_task cfg fs client arch t).1 = .ok (agentErrorRecord cfg e)
    ∧ (agentErrorRecord cfg e).status = "error"
    ∧ (agentErrorRecord cfg e).error = some e
    ∧ runTasks fs client arch (t :: rest)
        = (agentErrorRecord cfg e :: (runTasks fs client arch rest).1,
           ((process_task cfg fs client arch t).2.map WEvent.warned)
             ++ .recordFromAgent (agentErrorRecord cfg e)
                :: .slept 1 :: (runTasks fs client arch rest).2) := by
  have hp : (process_task cfg fs client arch t).1 = .ok (agentErrorRecord cfg e) := by
    unfold process_task
    rw [hread, hfail]
  exact ⟨hp, rfl, rfl, by simp [runTasks, hcfg, hp]⟩

/-- Claim C3, witness: concrete run with a failing model client. -/
theorem claim_C3_witness :
    agents taskX.task_type = some codeReviewerAgent
    ∧ (collectFiles fsEmpty taskX.files).2.2 = none
    ∧ clientFail (requestFor codeReviewerAgent fsEmpty "A" taskX) = .error "boom"
    ∧ ((process_task codeReviewerAgent fsEmpty clientFail "A" taskX).1
        = .ok (agentErrorRecord codeReviewerAgent "boom")
      ∧ (agentErrorRecord codeReviewerAgent "boom").status = "error"
      ∧ (agentErrorRecord codeReviewerAgent "boom").error = some "boom"
      ∧ runTasks fsEmpty clientFail "A" (taskX :: [])
          = (agentErrorRecord codeReviewerAgent "boom"
               :: (runTasks fsEmpty clientFail "A" []).1,
             ((process_task codeReviewerAgent fsEmpty clientFail "A" taskX).2.map WEvent.warned)
               ++ .recordFromAgent (agentErrorRecord codeReviewerAgent "boom")
                  :: .slept 1 :: (runTasks fsEmpty clientFail "A" []).2)) :=
  ⟨rfl, rfl, rfl, claim_C3 fsEmpty clientFail "A" codeReviewerAgent taskX [] "boom" rfl rfl rfl⟩

/-- Status of any record produced by the loop for some task. -/
theorem taskRecord_status {fs : FileSystem} {client : ModelClient} {arch : String} {t : AgentTask} {r : ResultRecord}
    (h : taskRecord fs client arch t = some r) :
    r.status = "completed" ∨ r.status = "error" := by
  cases hA : agents t.task_type with
  | none => rw [taskRecord, hA] at h; exact absurd h (by simp)
  | some cfg => exact (taskRecord_fields hA h).2.1

/-- Every record in the loop output has a binary status. -/
theorem mem_runTasks_status {fs : FileSystem} {client : ModelClient} {arch : String} {l : List AgentTask} {r : ResultRecord}
    (h : r ∈ (runTasks fs client arch l).1) :
    r.status = "completed" ∨ r.status = "error" := by
  rw [runTasks_fst] at h
  rcases List.mem_filterMap.mp h with ⟨t, _, ht⟩
  exact taskRecord_status ht

/-- Counting a two-way partition of the records by status. -/
theorem filter_status_partition (l : List ResultRecord)
    (h : ∀ r ∈ l, r.status = "completed" ∨ r.status = "error") :
    (l.filter (fun r => r.status == "completed")).length
      + (l.filter (fun r => r.status == "error")).length = l.length := by
  induction l with
  | nil => rfl
  | cons r t ih =>
    have hr := h r (List.mem_cons_self r t)
    have ht := ih (fun x hx => h x (List.mem_cons_of_mem r hx))
    rcases hr with hc | he
    · simp [List.filter_cons, hc, ← ht]
      omega
    · simp [List.filter_cons, he, ← ht]
      omega

/-- Claim C6: the summary always satisfies
`completed_tasks + failed_tasks = number of emitted records`, because
every emitted record has status `completed` or `error`. -/
theorem claim_C6 (o : MultiAgentOrchestrator) (fs : FileSystem) (client : ModelClient) (arch : String) (tasks : List AgentTask) :
    (process_workflow o fs client arch tasks).1.completed_tasks
        + (process_workflow o fs client arch tasks).1.failed_tasks
      = (process_workflow o fs client arch tasks).1.workflow_results.length
    ∧ ∀ r ∈ (process_workflow o fs client arch tasks).1.workflow_results,
        r.status = "completed" ∨ r.status = "error" := by
  constructor
  · exact filter_status_partition _ (fun r hr => mem_runTasks_status hr)
  · exact fun r hr => mem_runTasks_status hr

/-- Missing-file warnings never affect the sleep-after-record
scanner. -/
theorem delayAfterAgentReturn_warns (ws : List String) (l : List WEvent) :
    delayAfterAgentReturn (ws.map WEvent.warned ++ l) = delayAfterAgentReturn l := by
  induction ws with
  | nil => rfl
  | cons w ws ih => simpa [delayAfterAgentReturn] using ih

/-- In any loop trace, every record appended after a normal
`process_task` return is immediately followed by the one-unit sleep. -/
theorem delayAfterAgentReturn_runTasks (fs : FileSystem) (client : ModelClient) (arch : String) (l : List AgentTask) :
    delayAfterAgentReturn (runTasks fs client arch l).2 = true := by
  induction l with
  | nil => rfl
  | cons t rest ih =>
    cases hA : agents t.task_type with
    | none => simpa [runTasks, hA, delayAfterAgentReturn] using ih
    | some cfg =>
      cases hp : (process_task cfg fs client arch t).1 with
      | ok r =>
        simp only [runTasks, hA, hp, delayAfterAgentReturn_warns]
        simpa [delayAfterAgentReturn] using ih
      | error m =>
        simp only [runTasks, hA, hp, delayAfterAgentReturn_warns]
        simpa [delayAfterAgentReturn] using ih

/-- Claim C4 (amended): in every workflow trace, the one-unit sleep
follows every record that `process_task` returned normally — completed
or error alike — but when `process_task` raises, the synthesized error
record is appended with no sleep before the next task. -/
theorem claim_C4 (o : MultiAgentOrchestrator) (fs : FileSystem) (client : ModelClient) (arch : String) (tasks : List AgentTask) :
    delayAfterAgentReturn (process_workflow o fs client arch tasks).2 = true :=
  delayAfterAgentReturn_runTasks fs client arch (sortedTasks tasks)

/-- Claim C4, counterexample to the claim as stated: a workflow of two
registered tasks in which the first read raises, so its error record is
appended with no sleep before the second task is processed; the delay is
therefore not unconditional over all record-producing tasks. -/
theorem claim_C4_counterexample :
    (process_workflow orchX fsBad clientOK "A" [taskBad, taskGood]).2
      = [.recordFromException "code_reviewer" "Permission denied",
         .recordFromAgent (completedRecord codeReviewerAgent taskGood "OK"),
         .slept 1]
    ∧ delayAfterEveryRecord
        (process_workflow orchX fsBad clientOK "A" [taskBad, taskGood]).2 = false
    ∧ isRecordEvent (WEvent.recordFromException "code_reviewer" "Permission denied") = true :=
  ⟨by decide, by decide, rfl⟩

/-- Claim C8: without a credential (no argument, nothing in the
environment) construction fails with the `ValueError` message — and only
a constructed `MultiAgentOrchestrator` can be passed to
`process_workflow`; with a nonempty credential from either source,
construction succeeds and stores the key. -/
theorem claim_C8 (s : String) (env : Option String) (hs : s ≠ "") :
    MultiAgentOrchestrator.init none none = .error missingKeyMsg
    ∧ MultiAgentOrchestrator.init (some s) env = .ok ⟨s⟩
    ∧ MultiAgentOrchestrator.init none (some s) = .ok ⟨s⟩ := by
  refine ⟨rfl, ?_, ?_⟩ <;>
    simp [MultiAgentOrchestrator.init, pyOrStr, pyTruthy, hs]

/-- Claim C8, witness: concrete nonempty key. -/
theorem claim_C8_witness :
    "sk-test" ≠ ""
    ∧ (MultiAgentOrchestrator.init none none = .error missingKeyMsg
        ∧ MultiAgentOrchestrator.init (some "sk-test") none = .ok ⟨"sk-test"⟩
        ∧ MultiAgentOrchestrator.init none (some "sk-test") = .ok ⟨"sk-test"⟩) :=
  ⟨by decide, claim_C8 "sk-test" none (by decide)⟩

/-- Claim C9: the registry holds agents for exactly the three categories
`code_reviewer`, `documentation`, `testing`; a task in any of the other
four categories is skipped — no record, a skip diagnostic — and the loop
continues with the remaining tasks. -/
theorem claim_C9 (fs : FileSystem) (client : ModelClient) (arch : String) (t : AgentTask) (rest : List AgentTask)
    (h : t.task_type = .REFACTORING ∨ t.task_type = .ARCHITECTURE
        ∨ t.task_type = .SECURITY ∨ t.task_type = .PERFORMANCE) :
    (∀ a : AgentType, (agents a).isSome
        ↔ (a = .CODE_REVIEWER ∨ a = .DOCUMENTATION ∨ a = .TESTING))
    ∧ agents t.task_type = none
    ∧ runTasks fs client arch (t :: rest)
        = ((runTasks fs client arch rest).1,
           WEvent.skippedNoAgent t.task_type.value :: (runTasks fs client arch rest).2) := by
  have hnone : agents t.task_type = none := by
    rcases h with h | h | h | h <;> rw [h] <;> rfl
  refine ⟨fun a => by cases a <;> simp [agents], hnone, ?_⟩
  simp [runTasks, hnone]

/-- Claim C9, witness: a concrete `security` task ahead of a registered
task list. -/
theorem claim_C9_witness :
    (taskSec.task_type = .REFACTORING ∨ taskSec.task_type = .ARCHITECTURE
        ∨ taskSec.task_type = .SECURITY ∨ taskSec.task_type = .PERFORMANCE)
    ∧ ((∀ a : AgentType, (agents a).isSome
          ↔ (a = .CODE_REVIEWER ∨ a = .DOCUMENTATION ∨ a = .TESTING))
      ∧ agents taskSec.task_type = none
      ∧ runTasks fsEmpty clientOK "A" (taskSec :: [taskGood])
          = ((runTasks fsEmpty clientOK "A" [taskGood]).1,
             WEvent.skippedNoAgent taskSec.task_type.value
               :: (runTasks fsEmpty clientOK "A" [taskGood]).2)) :=
  ⟨Or.inr (Or.inr (Or.inl rfl)),
   claim_C9 fsEmpty clientOK "A" taskSec [taskGood] (Or.inr (Or.inr (Or.inl rfl)))⟩

/-- Claim C10: when `process_task` raises, the workflow loop catches the
exception, appends a record with the task category value, status
`error` and the exception string, and continues with the remaining
tasks. -/
theorem claim_C10 (fs : FileSystem) (client : ModelClient) (arch : String) (cfg : AgentCfg) (t : AgentTask) (rest : List AgentTask) (m : String)
    (hcfg : agents t.task_type = some cfg)
    (hraise : (process_task cfg fs client arch t).1 = .error m) :
    runTasks fs client arch (t :: rest)
      = (exceptionRecord t m :: (runTasks fs client arch rest).1,
         ((process_task cfg fs client arch t).2.map WEvent.warned)
           ++ .recordFromException t.task_type.value m
              :: (runTasks fs client arch rest).2)
    ∧ (exceptionRecord t m).agent_type = t.task_type.value
    ∧ (exceptionRecord t m).status = "error"
    ∧ (exceptionRecord t m).error = some m := by
  exact ⟨by simp [runTasks, hcfg, hraise], rfl, rfl, rfl⟩

/-- Claim C10, witness: a concrete run in which the file read raises a
non-not-found error. -/
theorem claim_C10_witness :
    agents taskBad.task_type = some codeReviewerAgent
    ∧ (process_task codeReviewerAgent fsBad clientOK "A" taskBad).1
        = .error "Permission denied"
    ∧ (runTasks fsBad clientOK "A" (taskBad :: [])
        = (exceptionRecord taskBad "Permission denied"
             :: (runTasks fsBad clientOK "A" []).1,
           ((process_task codeReviewerAgent fsBad clientOK "A" taskBad).2.map WEvent.warned)
             ++ .recordFromException taskBad.task_type.value "Permission denied"
                :: (runTasks fsBad clientOK "A" []).2)
      ∧ (exceptionRecord taskBad "Permission denied").agent_type
          = taskBad.task_type.value
      ∧ (exceptionRecord taskBad "Permission denied").status = "error"
      ∧ (exceptionRecord taskBad "Permission denied").error
          = some "Permission denied") :=
  ⟨rfl, rfl,
   claim_C10 fsBad clientOK "A" codeReviewerAgent taskBad [] "Permission denied" rfl rfl⟩

/-- The prompt text before the joined file blocks. -/
def promptHead (cfg : AgentCfg) (arch : String) : String :=
  "\n" ++ get_system_prompt arch cfg.agent_type ++ "\n\n" ++ cfg.introLine ++ "\n\n"

/-- The prompt text after the joined file blocks. -/
def promptTail (cfg : AgentCfg) (task : AgentTask) : String :=
  "\n\nTask Description: " ++ task.description
    ++ "\nRequirements: " ++ joinSep ", " task.requirements
    ++ "\n\n" ++ cfg.outro ++ "\n"

/-- The built prompt is the joined file blocks between a fixed prefix
and a fixed suffix, neither of which depends on the files. -/
theorem buildPrompt_decomp (cfg : AgentCfg) (arch : String) (blocks : List String) (task : AgentTask) :
    buildPrompt cfg arch blocks task
      = promptHead cfg arch ++ (joinSep "\n" blocks ++ promptTail cfg task) := by
  simp [buildPrompt, promptHead, promptTail, String.append_assoc]

/-- Any member of a joined list is an inner segment of the join. -/
theorem joinSep_infix (sep : String) {x : String} {l : List String} (h : x ∈ l) :
    ∃ u v, joinSep sep l = u ++ (x ++ v) := by
  induction l with
  | nil => cases h
  | cons a t ih =>
    rcases List.mem_cons.mp h with rfl | hx
    · cases t with
      | nil => exact ⟨"", "", by simp [joinSep]⟩
      | cons b t2 =>
        exact ⟨"", sep ++ joinSep sep (b :: t2), by simp [joinSep, String.append_assoc]⟩
    · cases t with
      | nil => cases hx
      | cons b t2 =>
        rcases ih hx with ⟨u, v, hj⟩
        exact ⟨a ++ sep ++ u, v, by rw [joinSep, hj]; simp [String.append_assoc]⟩

/-- The content of any file whose block is among the joined blocks is an
inner segment of the built prompt. -/
theorem prompt_contains {cfg : AgentCfg} {arch : String} {task : AgentTask} {blocks : List String} {p c : String}
    (hb : fileBlock p c ∈ blocks) :
    ∃ s₁ s₂, buildPrompt cfg arch blocks task = s₁ ++ (c ++ s₂) := by
  rcases joinSep_infix "\n" hb with ⟨u, v, hj⟩
  refine ⟨promptHead cfg arch ++ u ++ ("File: " ++ p ++ "\n```\n"),
          "\n```" ++ v ++ promptTail cfg task, ?_⟩
  rw [buildPrompt_decomp, hj]
  simp [fileBlock, String.append_assoc]

/-- When no read raises, the file-gathering loop returns the blocks of
the present files, the warnings of the missing files, and no
exception. -/
theorem collectFiles_noErr {fs : FileSystem} {files : List String}
    (h : ∀ p ∈ files, isReadError (fs p) = false) :
    collectFiles fs files = (presentBlocks fs files, missingWarnings fs files, none) := by
  induction files with
  | nil => rfl
  | cons p rest ih =>
    have hp := h p (List.mem_cons_self p rest)
    have hrest := ih (fun q hq => h q (List.mem_cons_of_mem p hq))
    cases hfs : fs p with
    | found c =>
      simp [collectFiles, hfs, presentBlocks, missingWarnings, List.filterMap_cons, hrest]
    | notFound =>
      simp [collectFiles, hfs, presentBlocks, missingWarnings, List.filterMap_cons, hrest]
    | readError m => rw [hfs] at hp; simp [isReadError] at hp

/-- Claim C7: when every read either succeeds or reports not-found (the
file-reader interface of the spec) and some file is missing,
`process_task` still returns a record rather than raising, one warning
is logged per missing file (so at least one), the prompt is built from
the blocks of exactly the present files, each present file content
appears inside the prompt, and when the model call succeeds the
returned record is the `completed` one. -/
theorem claim_C7 (cfg : AgentCfg) (fs : FileSystem) (client : ModelClient) (arch : String) (t : AgentTask)
    (hno : ∀ p ∈ t.files, isReadError (fs p) = false)
    (hmiss : ∃ p ∈ t.files, fs p = ReadResult.notFound) :
    (∃ r, (process_task cfg fs client arch t).1 = Except.ok r)
    ∧ (process_task cfg fs client arch t).2 = missingWarnings fs t.files
    ∧ missingWarnings fs t.files ≠ []
    ∧ promptFor cfg fs arch t = buildPrompt cfg arch (presentBlocks fs t.files) t
    ∧ (∀ p c, p ∈ t.files → fs p = ReadResult.found c →
        ∃ s₁ s₂, promptFor cfg fs arch t = s₁ ++ (c ++ s₂))
    ∧ (∀ text, client (requestFor cfg fs arch t) = Except.ok text →
        (process_task cfg fs client arch t).1 = Except.ok (completedRecord cfg t text)) := by
  have hcf := collectFiles_noErr hno
  have h22 : (collectFiles fs t.files).2.2 = none := by rw [hcf]
  have h21 : (collectFiles fs t.files).2.1 = missingWarnings fs t.files := by rw [hcf]
  have h1 : (collectFiles fs t.files).1 = presentBlocks fs t.files := by rw [hcf]
  have hprompt : promptFor cfg fs arch t = buildPrompt cfg arch (presentBlocks fs t.files) t := by
    rw [promptFor, h1]
  refine ⟨?_, ?_, ?_, hprompt, ?_, ?_⟩
  · unfold process_task
    rw [h22]
    cases client (requestFor cfg fs arch t) with
    | ok text => exact ⟨completedRecord cfg t text, rfl⟩
    | error e => exact ⟨agentErrorRecord cfg e, rfl⟩
  · unfold process_task
    rw [h22]
    cases hclt : client (requestFor cfg fs arch t) <;> simp [hclt, h21]
  · rcases hmiss with ⟨p, hp, hfs⟩
    have hmem : fileNotFoundWarning p ∈ missingWarnings fs t.files :=
      List.mem_filterMap.mpr ⟨p, hp, by rw [hfs]⟩
    exact List.ne_nil_of_mem hmem
  · intro p c hp hfs
    have hb : fileBlock p c ∈ presentBlocks fs t.files :=
      List.mem_filterMap.mpr ⟨p, hp, by rw [hfs]⟩
    rw [hprompt]
    exact prompt_contains hb
  · intro text htext
    unfold process_task
    rw [h22, htext]

/-- Claim C7, witness: a review task over one present and one missing
file, with a succeeding model client. -/
theorem claim_C7_witness :
    (∀ p ∈ taskPM.files, isReadError (fsPresent p) = false)
    ∧ (∃ p ∈ taskPM.files, fsPresent p = ReadResult.notFound)
    ∧ ((∃ r, (process_task codeReviewerAgent fsPresent clientOK "A" taskPM).1
          = Except.ok r)
      ∧ (process_task codeReviewerAgent fsPresent clientOK "A" taskPM).2
          = missingWarnings fsPresent taskPM.files
      ∧ missingWarnings fsPresent taskPM.files ≠ []
      ∧ promptFor codeReviewerAgent fsPresent "A" taskPM
          = buildPrompt codeReviewerAgent "A" (presentBlocks fsPresent taskPM.files) taskPM
      ∧ (∀ p c, p ∈ taskPM.files → fsPresent p = ReadResult.found c →
          ∃ s₁ s₂, promptFor codeReviewerAgent fsPresent "A" taskPM = s₁ ++ (c ++ s₂))
      ∧ (∀ text, clientOK (requestFor codeReviewerAgent fsPresent "A" taskPM)
            = Except.ok text →
          (process_task codeReviewerAgent fsPresent clientOK "A" taskPM).1
            = Except.ok (completedRecord codeReviewerAgent taskPM text))) :=
  ⟨by decide, by decide,
   claim_C7 codeReviewerAgent fsPresent clientOK "A" taskPM (by decide) (by decide)⟩

end MexcAgents
